import Mathlib

/-!
Shallow embedding of the simulation core of game.py (Dog-Human Runner):
player physics and health, enemy patrol, the per-frame game update
(collision resolution, cull/score pass, speed ramp, spawner) and session
initialisation.  Positions, velocities and elapsed times are modelled as
exact rationals; the pygame rect geometry (which depends on the loaded
image assets) is abstracted as a collision oracle passed to the update,
and Python's random module as explicit value streams.  Sound playback is
a fire-and-forget external service, modelled as a list of emitted sound
signals.
-/

namespace Runner

/-- Viewport width (WIDTH in the config block of game.py). -/
def WIDTH : ℚ := 960

/-- Window height (HEIGHT). -/
def HEIGHT : ℚ := 540

/-- GROUND_HEIGHT. -/
def GROUND_HEIGHT : ℚ := 70

/-- GROUND_Y = HEIGHT - GROUND_HEIGHT; pygame y grows downwards, so the
player is airborne when y < GROUND_Y. -/
def GROUND_Y : ℚ := HEIGHT - GROUND_HEIGHT

/-- GRAVITY = 0.7. -/
def GRAVITY : ℚ := 7/10

/-- PLAYER_START_SPEED_BASE = 4.0. -/
def PLAYER_START_SPEED_BASE : ℚ := 4

/-- SPEED_INCREASE_STEP = 0.5. -/
def SPEED_INCREASE_STEP : ℚ := 1/2

/-- SCORE_STEP = 10. -/
def SCORE_STEP : ℕ := 10

/-- PLAYER_MAX_HEALTH = 3. -/
def PLAYER_MAX_HEALTH : ℤ := 3

/-- MIN_SPAWN_DIST = 600. -/
def MIN_SPAWN_DIST : ℕ := 600

/-- MAX_SPAWN_DIST = 1100. -/
def MAX_SPAWN_DIST : ℕ := 1100

/-- POTION_BASE_WEIGHT = 0.05. -/
def POTION_BASE_WEIGHT : ℚ := 1/20

/-- The reference frame duration 16.67 ms appearing as the literal
dt/16.67 in apply_gravity, Player.update and Enemy.update. -/
def frameRef : ℚ := 1667/100

/-- Difficulty setting;  game.py difficulty strings. -/
inductive Difficulty
  | Easy
  | Normal
  | Hard
deriving DecidableEq

/-- DIFFICULTY_MOD lookup table: Easy 0.85, Normal 1.0, Hard 1.25. -/
def DIFFICULTY_MOD : Difficulty → ℚ
  | .Easy => 17/20
  | .Normal => 1
  | .Hard => 5/4

/-- Sound-effect signals triggered by the simulation (playback itself is
an external fire-and-forget service). -/
inductive Sound
  | jump
  | hit
  | heal
  | death
  | enemyAttack
deriving DecidableEq

/-- Player state strings: idle, run, jump, dead. -/
inductive PState
  | idle
  | run
  | jump
  | dead
deriving DecidableEq

/-- Player record: the fields of Player.__init__ that carry simulation
state (the image/frame-surface fields are rendering only and are not
modelled; animation frame index and timer are kept). -/
structure PlayerS where
  world_x : ℚ
  y : ℚ
  vel_y : ℚ
  state : PState
  frame : ℕ
  frame_timer : ℚ
  frame_speed : ℚ
  alive : Bool
  health : ℤ
deriving DecidableEq

/-- Player.__init__(world_x). -/
def Player.init (x : ℚ) : PlayerS :=
  { world_x := x, y := GROUND_Y, vel_y := 0, state := .idle,
    frame := 0, frame_timer := 0, frame_speed := 100,
    alive := true, health := PLAYER_MAX_HEALTH }

/-- Player.apply_gravity(dt): semi-implicit Euler step scaled by
dt/16.67, with clamping to ground level and jump-to-run promotion on
landing. -/
def apply_gravity (p : PlayerS) (dt : ℚ) : PlayerS :=
  let vel := p.vel_y + GRAVITY * (dt / frameRef)
  let y := p.y + vel * (dt / frameRef)
  if GROUND_Y ≤ y then
    { p with y := GROUND_Y, vel_y := 0,
             state := if p.state = .jump then .run else p.state }
  else
    { p with y := y, vel_y := vel }

/-- Player.die(): generic death path, plays the death sound. -/
def die (p : PlayerS) : PlayerS × List Sound :=
  if p.alive = false then (p, [])
  else ({ p with alive := false, state := .dead }, [.death])

/-- Player.take_damage(amt): no-op when dead; silent death when health is
exactly 1; otherwise decrement, play the hit sound, and invoke the
generic death path when health drops to 0 or below. -/
def take_damage (p : PlayerS) (amt : ℤ) : PlayerS × List Sound :=
  if p.alive = false then (p, [])
  else if p.health = 1 then
    ({ p with health := 0, alive := false, state := .dead, frame := 0 }, [])
  else
    let p1 := { p with health := p.health - amt }
    if p1.health ≤ 0 then
      let d := die p1
      (d.1, .hit :: d.2)
    else
      (p1, [.hit])

/-- Player.heal(amt): no-op when dead; otherwise raise health capped at
PLAYER_MAX_HEALTH and play the heal sound. -/
def heal (p : PlayerS) (amt : ℤ) : PlayerS × List Sound :=
  if p.alive = false then (p, [])
  else ({ p with health := min PLAYER_MAX_HEALTH (p.health + amt) }, [.heal])

/-- Player.update_animation(dt): dead and jump show a fixed frame; idle
and run cycle through a frame list.  The frame-list lengths depend on the
loaded assets and are passed in as rl (run) and il (idle); the image
assignment itself is rendering only and not modelled. -/
def update_animation (rl il : ℕ) (dt : ℚ) (p : PlayerS) : PlayerS :=
  if p.state = .dead then p
  else if p.state = .jump then p
  else
    let len := if p.state = .run then rl else il
    let ft := p.frame_timer + dt
    if p.frame_speed ≤ ft then
      { p with frame_timer := 0, frame := (p.frame + 1) % len }
    else
      { p with frame_timer := ft }

/-- Player.update(dt, game): gravity, ground-state promotion to run,
animation, then auto-advance of world_x by speed * (dt/16.67). -/
def Player.update (rl il : ℕ) (dt speed : ℚ) (p : PlayerS) : PlayerS :=
  let p1 := apply_gravity p dt
  let p2 :=
    if GROUND_Y ≤ p1.y ∧ p1.state ≠ .dead ∧ p1.state ≠ .jump then
      { p1 with state := .run }
    else p1
  let p3 := update_animation rl il dt p2
  { p3 with world_x := p3.world_x + speed * (dt / frameRef) }

/-- Enemy record: the patrol and animation state of Enemy.__init__
(frame surfaces are rendering only). -/
structure EnemyS where
  world_x : ℚ
  frame : ℕ
  frame_timer : ℚ
  frame_speed : ℚ
  left : ℚ
  right : ℚ
  dir : ℤ
  speed : ℚ
deriving DecidableEq

/-- Enemy.__init__(world_x) with the patrol speed drawn at creation from
random.uniform(1.5, 2.5) passed in as spd. -/
def Enemy.init (x spd : ℚ) : EnemyS :=
  { world_x := x, frame := 0, frame_timer := 0, frame_speed := 140,
    left := x - 120, right := x + 120, dir := -1, speed := spd }

/-- Enemy.update(dt, game): patrol movement with clamping and direction
reversal at the patrol bounds, then animation cycling (frame-list length
el depends on the loaded assets). -/
def Enemy.update (el : ℕ) (dt : ℚ) (a : EnemyS) : EnemyS :=
  let x := a.world_x + (a.dir : ℚ) * a.speed * (dt / frameRef)
  let m :=
    if x < a.left then { a with world_x := a.left, dir := 1 }
    else if a.right < x then { a with world_x := a.right, dir := -1 }
    else { a with world_x := x }
  let ft := m.frame_timer + dt
  if m.frame_speed ≤ ft then
    { m with frame_timer := 0, frame := (m.frame + 1) % el }
  else
    { m with frame_timer := ft }

/-- Non-player entities of the active set: Enemy, Box, Potion.  Box and
Potion carry only a world position (their images are rendering only). -/
inductive Ent
  | enemy (a : EnemyS)
  | box (x : ℚ)
  | potion (x : ℚ)
deriving DecidableEq

/-- World position of an entity. -/
def Ent.world_x : Ent → ℚ
  | .enemy a => a.world_x
  | .box x => x
  | .potion x => x

/-- Per-frame entity update: Enemy patrols, Box and Potion have a no-op
update. -/
def Ent.update (el : ℕ) (dt : ℚ) : Ent → Ent
  | .enemy a => .enemy (Enemy.update el dt a)
  | .box x => .box x
  | .potion x => .potion x

/-- Entity kind used by the random spawn draws. -/
inductive EKind
  | box
  | enemy
  | potion
deriving DecidableEq

/-- Model of Python's random module: a stream of natural draws (for
randint / choice / choices) and a stream of rational draws (for
uniform), each with a cursor. -/
structure Rng where
  ints : ℕ → ℕ
  rats : ℕ → ℚ
  i : ℕ
  r : ℕ

/-- Consume one natural draw. -/
def nextInt (rng : Rng) : ℕ × Rng :=
  (rng.ints rng.i, { rng with i := rng.i + 1 })

/-- Consume one rational draw. -/
def nextRat (rng : Rng) : ℚ × Rng :=
  (rng.rats rng.r, { rng with r := rng.r + 1 })

/-- random.randint(a, b): inclusive on both ends. -/
def randint (a b : ℕ) (rng : Rng) : ℕ × Rng :=
  let v := nextInt rng
  (a + v.1 % (b - a + 1), v.2)

/-- random.uniform(a, b). -/
def uniformQ (a b : ℚ) (rng : Rng) : ℚ × Rng :=
  let v := nextRat rng
  (a + (b - a) * v.1, v.2)

/-- random.choice(["box","enemy","potion"]): a uniform draw among the
three kinds, modelled by the selector stream. -/
def choiceKind (rng : Rng) : EKind × Rng :=
  let v := nextInt rng
  (match v.1 % 3 with
   | 0 => .box
   | 1 => .enemy
   | _ => .potion, v.2)

/-- random.choices(["box","enemy","potion"], weights): a categorical
draw.  The weights shape only the distribution of the draw, which is
modelled by the selector stream; the support is the same three kinds. -/
def choicesKind (_weights : List ℚ) (rng : Rng) : EKind × Rng :=
  let v := nextInt rng
  (match v.1 % 3 with
   | 0 => .box
   | 1 => .enemy
   | _ => .potion, v.2)

/-- Construct an entity of the given kind at world position x; an Enemy
consumes one uniform(1.5, 2.5) draw for its patrol speed. -/
def mkEnt (k : EKind) (x : ℚ) (rng : Rng) : Ent × Rng :=
  match k with
  | .box => (.box x, rng)
  | .potion => (.potion x, rng)
  | .enemy =>
    let u := uniformQ (3/2) (5/2) rng
    (.enemy (Enemy.init x u.1), u.2)

/-- clamp(v, a, b) from game.py. -/
def clamp (v a b : ℚ) : ℚ := max a (min b v)

/-- Game session state: the fields of Game.__init__ that carry
simulation state. -/
structure GameS where
  player : PlayerS
  camera_x : ℚ
  base_speed : ℚ
  speed : ℚ
  score : ℕ
  last_milestone : ℤ
  entities : List Ent
  potion_weight : ℚ
deriving DecidableEq

/-- Loop body of Game._seed_initial_world: five iterations of a uniform
kind choice, entity construction at x, then x += randint(300, 500). -/
def seedLoop : ℕ → ℚ → List Ent → Rng → List Ent × Rng
  | 0, _, es, rng => (es, rng)
  | n + 1, x, es, rng =>
    let k := choiceKind rng
    let e := mkEnt k.1 x k.2
    let d := randint 300 500 e.2
    seedLoop n (x + (d.1 : ℚ)) (es ++ [e.1]) d.2

/-- Game.__init__(screen, settings): player at world_x 100, camera 0,
base speed scaled by the difficulty modifier, score 0, last milestone -1,
initial world seeding from x = 600, and the difficulty-adjusted potion
weight. -/
def Game.init (diff : Difficulty) (rng : Rng) : GameS × Rng :=
  let seeded := seedLoop 5 600 [] rng
  ({ player := Player.init 100,
     camera_x := 0,
     base_speed := PLAYER_START_SPEED_BASE * DIFFICULTY_MOD diff,
     speed := PLAYER_START_SPEED_BASE * DIFFICULTY_MOD diff,
     score := 0,
     last_milestone := -1,
     entities := seeded.1,
     potion_weight := POTION_BASE_WEIGHT *
       (if diff = .Normal then 1 else if diff = .Easy then 4/5 else 3/5) },
   seeded.2)

/-- Furthest world position among the entities and the player, as
computed by max([e.world_x for e in self.entities] + [player.world_x]). -/
def furthestEnt (es : List Ent) (px : ℚ) : ℚ :=
  es.foldr (fun e m => max e.world_x m) px

/-- Body of the while loop of Game.spawn_if_needed, with explicit fuel
(the loop advances furthest by at least MIN_SPAWN_DIST each iteration,
so the fuel chosen by spawnIfNeeded always suffices).  Returns the final
furthest position, the entity list and the random state. -/
def spawnLoop (bound pw : ℚ) : ℕ → ℚ → List Ent → Rng → ℚ × List Ent × Rng
  | 0, furthest, es, rng => (furthest, es, rng)
  | n + 1, furthest, es, rng =>
    if furthest < bound then
      let d := randint MIN_SPAWN_DIST MAX_SPAWN_DIST rng
      let x := furthest + (d.1 : ℚ)
      let wts := [6/10, 35/100, clamp pw (2/100) (15/100)]
      let k := choicesKind wts d.2
      let e := mkEnt k.1 x k.2
      spawnLoop bound pw n x (es ++ [e.1]) e.2
    else
      (furthest, es, rng)

/-- Game.spawn_if_needed: while the furthest active entity (or the
player) is nearer than camera_x + WIDTH + MIN_SPAWN_DIST, generate one
new entity at furthest + randint(MIN_SPAWN_DIST, MAX_SPAWN_DIST). -/
def spawnIfNeeded (g : GameS) (rng : Rng) : GameS × Rng :=
  let furthest := furthestEnt g.entities g.player.world_x
  let bound := g.camera_x + WIDTH + (MIN_SPAWN_DIST : ℚ)
  let fuel := (⌈bound - furthest⌉).toNat + 1
  let res := spawnLoop bound g.potion_weight fuel furthest g.entities rng
  ({ g with entities := res.2.1 }, res.2.2)

/-- Collision pass of Game.update: iterate over a snapshot of the active
set taken at the start of the pass; on overlap an Enemy plays the
enemy-attack signal when the player's health is exactly 1, then deals
one damage and is removed; a Box is inert; a Potion heals one point and
is removed.  The pygame rect overlap test (which depends on the loaded
images) is the oracle collide, fixed at the start of the pass. -/
def collisionGo (collide : Ent → Bool) :
    List Ent → List Ent → PlayerS → List Sound → PlayerS × List Ent × List Sound
  | [], cur, p, snd => (p, cur, snd)
  | e :: rest, cur, p, snd =>
    if collide e then
      match e with
      | .enemy a =>
        let atk := if p.health = 1 then [Sound.enemyAttack] else []
        let d := take_damage p 1
        collisionGo collide rest (cur.erase (.enemy a)) d.1 (snd ++ atk ++ d.2)
      | .box _ => collisionGo collide rest cur p snd
      | .potion x =>
        let h := heal p 1
        collisionGo collide rest (cur.erase (.potion x)) h.1 (snd ++ h.2)
    else
      collisionGo collide rest cur p snd

/-- Cull pass of Game.update: iterate over a snapshot; any entity whose
world_x is more than 220 behind the player's is removed, incrementing
the score by 1 when the player's world_x exceeds the entity's. -/
def cullGo (px : ℚ) : List Ent → List Ent → ℕ → List Ent × ℕ
  | [], cur, s => (cur, s)
  | e :: rest, cur, s =>
    if e.world_x < px - 220 then
      cullGo px rest (cur.erase e) (s + (if e.world_x < px then 1 else 0))
    else
      cullGo px rest cur s

/-- Cull pass entry point: the snapshot is the current active set. -/
def cullPass (px : ℚ) (es : List Ent) (s : ℕ) : List Ent × ℕ :=
  cullGo px es es s

/-- Speed ramp of Game.update: milestone = score // SCORE_STEP; when it
exceeds the last recorded milestone, record it and add
SPEED_INCREASE_STEP, clamping the result to 18. -/
def speedRamp (g : GameS) : GameS :=
  let milestone : ℤ := (g.score : ℤ) / (SCORE_STEP : ℤ)
  if g.last_milestone < milestone then
    let s := g.speed + SPEED_INCREASE_STEP
    { g with last_milestone := milestone,
             speed := if 18 < s then 18 else s }
  else g

/-- Game.update(dt): frozen world when the player is dead; otherwise
player advance, camera follow at 35% of the viewport, entity updates,
collision pass, cull pass, speed ramp and spawn pass, in that order.
rl, il, el are the asset-dependent animation frame-list lengths and
collide the asset-dependent rect-overlap oracle (given the post-advance
player and camera, fixed for the pass). -/
def Game.update (rl il el : ℕ) (collide : PlayerS → ℚ → Ent → Bool)
    (dt : ℚ) (g : GameS) (rng : Rng) : GameS × Rng × List Sound :=
  if g.player.alive = false then (g, rng, [])
  else
    let p1 := Player.update rl il dt g.speed g.player
    let cam := p1.world_x - WIDTH * (35/100)
    let es1 := g.entities.map (Ent.update el dt)
    let col := collisionGo (collide p1 cam) es1 es1 p1 []
    let cul := cullGo col.1.world_x col.2.1 col.2.1 g.score
    let g1 : GameS :=
      { g with player := col.1, camera_x := cam,
               entities := cul.1, score := cul.2 }
    let g2 := speedRamp g1
    let sp := spawnIfNeeded g2 rng
    (sp.1, sp.2, col.2.2)

/-- Run a sequence of frames, threading the game state and the random
state (sounds discarded). -/
def runUpdates (rl il el : ℕ) (collide : PlayerS → ℚ → Ent → Bool) :
    List ℚ → GameS → Rng → GameS × Rng
  | [], g, rng => (g, rng)
  | dt :: rest, g, rng =>
    let u := Game.update rl il el collide dt g rng
    runUpdates rl il el collide rest u.1 u.2.1

/-- Player operations the simulation loop invokes, always with amount 1:
unit damage on enemy contact, unit heal on potion contact. -/
inductive POp
  | dmg
  | hl
deriving DecidableEq

/-- Apply one player operation. -/
def applyOp (p : PlayerS) : POp → PlayerS × List Sound
  | .dmg => take_damage p 1
  | .hl => heal p 1

/-- Apply a sequence of player operations, accumulating the emitted
sound signals. -/
def applyOps : List POp → PlayerS → PlayerS × List Sound
  | [], p => (p, [])
  | o :: rest, p =>
    let s1 := applyOp p o
    let s2 := applyOps rest s1.1
    (s2.1, s1.2 ++ s2.2)

/-! ### Helper lemmas about the player operations -/

lemma take_damage_dead (p : PlayerS) (amt : ℤ) (h : p.alive = false) :
    take_damage p amt = (p, []) := by
  simp [take_damage, h]

lemma heal_dead (p : PlayerS) (amt : ℤ) (h : p.alive = false) :
    heal p amt = (p, []) := by
  simp [heal, h]

lemma take_damage_world_x (p : PlayerS) (amt : ℤ) :
    (take_damage p amt).1.world_x = p.world_x := by
  unfold take_damage die
  dsimp only
  split
  · rfl
  · split
    · rfl
    · split
      · rfl
      · rfl

lemma heal_world_x (p : PlayerS) (amt : ℤ) :
    (heal p amt).1.world_x = p.world_x := by
  unfold heal
  split
  · rfl
  · rfl

/-- Health and liveness invariant preserved by the unit-amount player
operations the simulation loop performs. -/
def InvH (p : PlayerS) : Prop :=
  0 ≤ p.health ∧ p.health ≤ PLAYER_MAX_HEALTH ∧ (p.alive = true → 1 ≤ p.health)

lemma invH_init (x : ℚ) : InvH (Player.init x) := by
  refine ⟨by norm_num [Player.init, PLAYER_MAX_HEALTH], ?_, ?_⟩ <;>
    norm_num [Player.init, PLAYER_MAX_HEALTH]

lemma take_damage_one_final (p : PlayerS) (hal : p.alive = true) (hone : p.health = 1) :
    take_damage p 1 =
      ({ p with health := 0, alive := false, state := .dead, frame := 0 }, []) := by
  simp [take_damage, hal, hone]

lemma take_damage_one_step (p : PlayerS) (hal : p.alive = true) (h2 : 2 ≤ p.health) :
    take_damage p 1 = ({ p with health := p.health - 1 }, [Sound.hit]) := by
  have hone : ¬ p.health = 1 := by omega
  have hpos : ¬ p.health - 1 ≤ 0 := by omega
  simp [take_damage, hal, hone, hpos]

lemma heal_alive (p : PlayerS) (hal : p.alive = true) :
    heal p 1 =
      ({ p with health := min PLAYER_MAX_HEALTH (p.health + 1) }, [Sound.heal]) := by
  simp [heal, hal]

lemma applyOp_invH (p : PlayerS) (o : POp) (h : InvH p) :
    InvH (applyOp p o).1 ∧ Sound.death ∉ (applyOp p o).2 := by
  obtain ⟨h0, h3, ha⟩ := h
  cases o with
  | dmg =>
    cases hval : p.alive with
    | false =>
      rw [applyOp, take_damage_dead p 1 hval]
      exact ⟨⟨h0, h3, ha⟩, by simp⟩
    | true =>
      have h1 : 1 ≤ p.health := ha hval
      by_cases hone : p.health = 1
      · rw [applyOp, take_damage_one_final p hval hone]
        refine ⟨⟨le_refl 0, by norm_num [PLAYER_MAX_HEALTH], ?_⟩, by simp⟩
        intro hcontra
        simp at hcontra
      · have h2 : 2 ≤ p.health := by omega
        rw [applyOp, take_damage_one_step p hval h2]
        refine ⟨⟨?_, ?_, fun _ => ?_⟩, by simp⟩
        · show (0:ℤ) ≤ p.health - 1
          omega
        · show p.health - 1 ≤ PLAYER_MAX_HEALTH
          unfold PLAYER_MAX_HEALTH at h3 ⊢
          omega
        · show (1:ℤ) ≤ p.health - 1
          omega
  | hl =>
    cases hval : p.alive with
    | false =>
      rw [applyOp, heal_dead p 1 hval]
      exact ⟨⟨h0, h3, ha⟩, by simp⟩
    | true =>
      have h1 : 1 ≤ p.health := ha hval
      rw [applyOp, heal_alive p hval]
      refine ⟨⟨?_, ?_, fun _ => ?_⟩, by simp⟩
      · show (0:ℤ) ≤ min PLAYER_MAX_HEALTH (p.health + 1)
        rw [le_min_iff]
        exact ⟨by norm_num [PLAYER_MAX_HEALTH], by omega⟩
      · show min PLAYER_MAX_HEALTH (p.health + 1) ≤ PLAYER_MAX_HEALTH
        exact min_le_left _ _
      · show (1:ℤ) ≤ min PLAYER_MAX_HEALTH (p.health + 1)
        rw [le_min_iff]
        exact ⟨by norm_num [PLAYER_MAX_HEALTH], by omega⟩

lemma applyOps_invH (ops : List POp) (p : PlayerS) (h : InvH p) :
    InvH (applyOps ops p).1 ∧ Sound.death ∉ (applyOps ops p).2 := by
  induction ops generalizing p with
  | nil => exact ⟨h, by simp [applyOps]⟩
  | cons o rest ih =>
    obtain ⟨h1, h2⟩ := applyOp_invH p o h
    obtain ⟨h3, h4⟩ := ih (applyOp p o).1 h1
    refine ⟨h3, ?_⟩
    simp only [applyOps, List.mem_append]
    rintro (hc | hc)
    · exact h2 hc
    · exact h4 hc

lemma applyOps_dead (ops : List POp) (p : PlayerS) (h : p.alive = false) :
    (applyOps ops p).1 = p := by
  induction ops with
  | nil => rfl
  | cons o rest ih =>
    cases o with
    | dmg => simp only [applyOps, applyOp, take_damage_dead p 1 h]; exact ih
    | hl => simp only [applyOps, applyOp, heal_dead p 1 h]; exact ih

lemma applyOps_append (l1 l2 : List POp) (p : PlayerS) :
    (applyOps (l1 ++ l2) p).1 = (applyOps l2 (applyOps l1 p).1).1 := by
  induction l1 generalizing p with
  | nil => rfl
  | cons o rest ih => simp only [List.cons_append, applyOps]; exact ih _

/-! ### Helper lemmas about the cull and collision passes -/

lemma cullGo_spec (px : ℚ) (t : List Ent) : ∀ (pfx : List Ent) (s : ℕ),
    (∀ e ∈ pfx, ¬ e.world_x < px - 220) →
    cullGo px t (pfx ++ t) s =
      (pfx ++ t.filter (fun e => !decide (e.world_x < px - 220)),
       s + t.countP (fun e => decide (e.world_x < px - 220))) := by
  induction t with
  | nil => intro pfx s _; simp [cullGo]
  | cons e rest ih =>
    intro pfx s hpfx
    by_cases hc : e.world_x < px - 220
    · have hin : e.world_x < px := by linarith
      have hne : e ∉ pfx := fun hm => hpfx e hm hc
      have herase : (pfx ++ e :: rest).erase e = pfx ++ rest := by
        rw [List.erase_append_right _ hne, List.erase_cons_head]
      simp only [cullGo, if_pos hc, if_pos hin, herase]
      rw [ih pfx (s + 1) hpfx]
      simp [hc, List.filter_cons, List.countP_cons]
      omega
    · have hsplit : pfx ++ e :: rest = (pfx ++ [e]) ++ rest := by simp
      have hpfx2 : ∀ x ∈ pfx ++ [e], ¬ x.world_x < px - 220 := by
        intro x hx
        rcases List.mem_append.mp hx with hx | hx
        · exact hpfx x hx
        · rcases List.mem_singleton.mp hx with rfl
          exact hc
      simp only [cullGo, if_neg hc]
      rw [hsplit, ih (pfx ++ [e]) s hpfx2]
      simp [hc, List.filter_cons, List.countP_cons]

lemma cullPass_spec (px : ℚ) (es : List Ent) (s : ℕ) :
    cullPass px es s =
      (es.filter (fun e => !decide (e.world_x < px - 220)),
       s + es.countP (fun e => decide (e.world_x < px - 220))) := by
  have h := cullGo_spec px es [] s (by intro e he; simp at he)
  simpa [cullPass] using h

lemma cullGo_none (px : ℚ) (t : List Ent) : ∀ (cur : List Ent) (s : ℕ),
    (∀ e ∈ t, ¬ e.world_x < px - 220) → cullGo px t cur s = (cur, s) := by
  induction t with
  | nil => intro cur s _; rfl
  | cons e rest ih =>
    intro cur s h
    have hc : ¬ e.world_x < px - 220 := h e (by simp)
    simp only [cullGo, if_neg hc]
    exact ih cur s (fun x hx => h x (by simp [hx]))

lemma cullGo_score_mono (px : ℚ) (t : List Ent) : ∀ (cur : List Ent) (s : ℕ),
    s ≤ (cullGo px t cur s).2 := by
  induction t with
  | nil => intro cur s; exact le_refl s
  | cons e rest ih =>
    intro cur s
    by_cases hc : e.world_x < px - 220
    · simp only [cullGo, if_pos hc]
      calc s ≤ s + (if e.world_x < px then 1 else 0) := Nat.le_add_right _ _
        _ ≤ _ := ih _ _
    · simp only [cullGo, if_neg hc]
      exact ih cur s

lemma collisionGo_subset (collide : Ent → Bool) (t : List Ent) :
    ∀ (cur : List Ent) (p : PlayerS) (snd : List Sound),
    ∀ e ∈ (collisionGo collide t cur p snd).2.1, e ∈ cur := by
  induction t with
  | nil => intro cur p snd e he; exact he
  | cons x rest ih =>
    intro cur p snd e he
    cases x with
    | enemy a =>
      simp only [collisionGo] at he
      by_cases hc : collide (Ent.enemy a) = true
      · rw [if_pos hc] at he
        exact List.mem_of_mem_erase (ih _ _ _ e he)
      · rw [if_neg hc] at he
        exact ih _ _ _ e he
    | box b =>
      simp only [collisionGo] at he
      by_cases hc : collide (Ent.box b) = true
      · rw [if_pos hc] at he
        exact ih _ _ _ e he
      · rw [if_neg hc] at he
        exact ih _ _ _ e he
    | potion c =>
      simp only [collisionGo] at he
      by_cases hc : collide (Ent.potion c) = true
      · rw [if_pos hc] at he
        exact List.mem_of_mem_erase (ih _ _ _ e he)
      · rw [if_neg hc] at he
        exact ih _ _ _ e he

lemma collisionGo_world_x (collide : Ent → Bool) (t : List Ent) :
    ∀ (cur : List Ent) (p : PlayerS) (snd : List Sound),
    (collisionGo collide t cur p snd).1.world_x = p.world_x := by
  induction t with
  | nil => intro cur p snd; rfl
  | cons x rest ih =>
    intro cur p snd
    cases x with
    | enemy a =>
      simp only [collisionGo]
      by_cases hc : collide (Ent.enemy a) = true
      · rw [if_pos hc, ih]
        exact take_damage_world_x p 1
      · rw [if_neg hc]
        exact ih _ _ _
    | box b =>
      simp only [collisionGo]
      by_cases hc : collide (Ent.box b) = true
      · rw [if_pos hc]
        exact ih _ _ _
      · rw [if_neg hc]
        exact ih _ _ _
    | potion c =>
      simp only [collisionGo]
      by_cases hc : collide (Ent.potion c) = true
      · rw [if_pos hc, ih]
        exact heal_world_x p 1
      · rw [if_neg hc]
        exact ih _ _ _

/-! ### Helper lemmas about the spawner and the initial seeding -/

lemma randint_bounds (a b : ℕ) (rng : Rng) (h : a ≤ b) :
    a ≤ (randint a b rng).1 ∧ (randint a b rng).1 ≤ b := by
  unfold randint nextInt
  dsimp only
  constructor
  · omega
  · have hlt : rng.ints rng.i % (b - a + 1) < b - a + 1 :=
      Nat.mod_lt _ (by omega)
    omega

lemma mkEnt_world_x (k : EKind) (x : ℚ) (rng : Rng) :
    (mkEnt k x rng).1.world_x = x := by
  cases k <;> rfl

lemma furthestEnt_append_one (es : List Ent) (e : Ent) (px : ℚ) :
    furthestEnt (es ++ [e]) px = max (furthestEnt es px) e.world_x := by
  induction es with
  | nil => exact max_comm _ _
  | cons a rest ih =>
    show max a.world_x (furthestEnt (rest ++ [e]) px)
        = max (max a.world_x (furthestEnt rest px)) e.world_x
    rw [ih, max_assoc]

lemma spawnLoop_spec (bound pw px : ℚ) : ∀ (n : ℕ) (f : ℚ) (es : List Ent) (rng : Rng),
    (⌈bound - f⌉).toNat < n →
    bound ≤ (spawnLoop bound pw n f es rng).1 ∧
    (∃ new, (spawnLoop bound pw n f es rng).2.1 = es ++ new ∧
       List.Chain (fun a b => a + (MIN_SPAWN_DIST : ℚ) ≤ b ∧ b ≤ a + (MAX_SPAWN_DIST : ℚ))
         f (new.map Ent.world_x)) ∧
    (furthestEnt es px = f →
       furthestEnt (spawnLoop bound pw n f es rng).2.1 px = (spawnLoop bound pw n f es rng).1) := by
  intro n
  induction n with
  | zero => intro f es rng hfuel; omega
  | succ n ih =>
    intro f es rng hfuel
    by_cases hlt : f < bound
    · have hd := randint_bounds MIN_SPAWN_DIST MAX_SPAWN_DIST rng
        (by norm_num [MIN_SPAWN_DIST, MAX_SPAWN_DIST])
      set d := (randint MIN_SPAWN_DIST MAX_SPAWN_DIST rng).1 with hdef
      have hd600 : (600 : ℚ) ≤ (d : ℚ) := by
        have := hd.1
        rw [MIN_SPAWN_DIST] at this
        exact_mod_cast this
      have hd1100 : (d : ℚ) ≤ 1100 := by
        have := hd.2
        rw [MAX_SPAWN_DIST] at this
        exact_mod_cast this
      have hmeasure : (⌈bound - (f + (d : ℚ))⌉).toNat < n := by
        have hle : bound - (f + (d : ℚ)) ≤ (bound - f) - ((600 : ℤ) : ℚ) := by
          push_cast
          linarith
        have h1 : ⌈bound - (f + (d : ℚ))⌉ ≤ ⌈bound - f⌉ - 600 := by
          calc ⌈bound - (f + (d : ℚ))⌉ ≤ ⌈(bound - f) - ((600 : ℤ) : ℚ)⌉ :=
                Int.ceil_le_ceil hle
            _ = ⌈bound - f⌉ - 600 := Int.ceil_sub_int _ _
        have h2 : 0 < ⌈bound - f⌉ := Int.lt_ceil.mpr (by push_cast; linarith)
        omega
      have hstep :
          spawnLoop bound pw (n + 1) f es rng =
            spawnLoop bound pw n (f + (d : ℚ))
              (es ++ [(mkEnt (choicesKind [6/10, 35/100, clamp pw (2/100) (15/100)]
                  (randint MIN_SPAWN_DIST MAX_SPAWN_DIST rng).2).1 (f + (d : ℚ))
                  (choicesKind [6/10, 35/100, clamp pw (2/100) (15/100)]
                  (randint MIN_SPAWN_DIST MAX_SPAWN_DIST rng).2).2).1])
              (mkEnt (choicesKind [6/10, 35/100, clamp pw (2/100) (15/100)]
                  (randint MIN_SPAWN_DIST MAX_SPAWN_DIST rng).2).1 (f + (d : ℚ))
                  (choicesKind [6/10, 35/100, clamp pw (2/100) (15/100)]
                  (randint MIN_SPAWN_DIST MAX_SPAWN_DIST rng).2).2).2 := by
        rw [spawnLoop, if_pos hlt]
      set eNew := (mkEnt (choicesKind [6/10, 35/100, clamp pw (2/100) (15/100)]
          (randint MIN_SPAWN_DIST MAX_SPAWN_DIST rng).2).1 (f + (d : ℚ))
          (choicesKind [6/10, 35/100, clamp pw (2/100) (15/100)]
          (randint MIN_SPAWN_DIST MAX_SPAWN_DIST rng).2).2).1 with heNew
      have hex : eNew.world_x = f + (d : ℚ) := by
        rw [heNew]
        exact mkEnt_world_x _ _ _
      obtain ⟨hb, ⟨new, hnew, hchain⟩, hfur⟩ := ih (f + (d : ℚ)) (es ++ [eNew]) _ hmeasure
      rw [hstep]
      refine ⟨hb, ⟨eNew :: new, ?_, ?_⟩, ?_⟩
      · rw [hnew]
        simp
      · rw [List.map_cons, hex]
        have hmin : ((MIN_SPAWN_DIST : ℕ) : ℚ) = 600 := by norm_num [MIN_SPAWN_DIST]
        have hmax : ((MAX_SPAWN_DIST : ℕ) : ℚ) = 1100 := by norm_num [MAX_SPAWN_DIST]
        exact List.Chain.cons ⟨by rw [hmin]; linarith, by rw [hmax]; linarith⟩ hchain
      · intro hf
        apply hfur
        rw [furthestEnt_append_one, hf, hex]
        exact max_eq_right (by linarith)
    · rw [spawnLoop, if_neg hlt]
      refine ⟨le_of_not_lt hlt, ⟨[], by simp, List.Chain.nil⟩, fun hf => hf⟩

lemma spawnIfNeeded_spec (g : GameS) (rng : Rng) :
    g.camera_x + WIDTH + (MIN_SPAWN_DIST : ℚ) ≤
      furthestEnt (spawnIfNeeded g rng).1.entities g.player.world_x ∧
    (∃ new, (spawnIfNeeded g rng).1.entities = g.entities ++ new ∧
       List.Chain (fun a b => a + (MIN_SPAWN_DIST : ℚ) ≤ b ∧ b ≤ a + (MAX_SPAWN_DIST : ℚ))
         (furthestEnt g.entities g.player.world_x) (new.map Ent.world_x)) := by
  have h := spawnLoop_spec (g.camera_x + WIDTH + (MIN_SPAWN_DIST : ℚ)) g.potion_weight
    g.player.world_x
    ((⌈g.camera_x + WIDTH + (MIN_SPAWN_DIST : ℚ) -
        furthestEnt g.entities g.player.world_x⌉).toNat + 1)
    (furthestEnt g.entities g.player.world_x) g.entities rng (by omega)
  obtain ⟨hb, hnew, hfur⟩ := h
  constructor
  · rw [show (spawnIfNeeded g rng).1.entities =
        (spawnLoop (g.camera_x + WIDTH + (MIN_SPAWN_DIST : ℚ)) g.potion_weight
          ((⌈g.camera_x + WIDTH + (MIN_SPAWN_DIST : ℚ) -
              furthestEnt g.entities g.player.world_x⌉).toNat + 1)
          (furthestEnt g.entities g.player.world_x) g.entities rng).2.1 from rfl]
    rw [hfur rfl]
    exact hb
  · exact hnew

lemma seedLoop_spec : ∀ (n : ℕ) (x : ℚ) (es : List Ent) (rng : Rng),
    ∃ ps, (seedLoop n x es rng).1.map Ent.world_x = es.map Ent.world_x ++ ps ∧
      ps.length = n ∧
      List.Chain' (fun a b => a + 300 ≤ b ∧ b ≤ a + 500) ps ∧
      (0 < n → ps.head? = some x) := by
  intro n
  induction n with
  | zero => intro x es rng; exact ⟨[], by simp [seedLoop], rfl, List.chain'_nil, by omega⟩
  | succ n ih =>
    intro x es rng
    have hd := randint_bounds 300 500 (mkEnt (choiceKind rng).1 x (choiceKind rng).2).2
      (by norm_num)
    set d := (randint 300 500 (mkEnt (choiceKind rng).1 x (choiceKind rng).2).2).1 with hdef
    have hd300 : (300 : ℚ) ≤ (d : ℚ) := by exact_mod_cast hd.1
    have hd500 : (d : ℚ) ≤ 500 := by exact_mod_cast hd.2
    obtain ⟨ps, hmap, hlen, hchain, hhead⟩ :=
      ih (x + (d : ℚ)) (es ++ [(mkEnt (choiceKind rng).1 x (choiceKind rng).2).1])
        (randint 300 500 (mkEnt (choiceKind rng).1 x (choiceKind rng).2).2).2
    refine ⟨x :: ps, ?_, by simp [hlen], ?_, fun _ => rfl⟩
    · rw [show seedLoop (n + 1) x es rng =
          seedLoop n (x + (d : ℚ))
            (es ++ [(mkEnt (choiceKind rng).1 x (choiceKind rng).2).1])
            (randint 300 500 (mkEnt (choiceKind rng).1 x (choiceKind rng).2).2).2 from rfl]
      rw [hmap]
      simp [mkEnt_world_x]
    · rw [List.chain'_cons']
      refine ⟨?_, hchain⟩
      intro y hy
      rcases Nat.eq_zero_or_pos n with hn | hn
      · subst hn
        rw [List.length_eq_zero.mp hlen] at hy
        simp at hy
      · rw [hhead hn] at hy
        rcases Option.mem_some_iff.mp hy with rfl
        exact ⟨by linarith, by linarith⟩

/-- Lower bound on entity geometry used to show the first frame culls
nothing: boxes and potions sit at or beyond c, an enemy's whole patrol
interval starts at or beyond c. -/
def entLB (c : ℚ) : Ent → Prop
  | .enemy a => c ≤ a.left ∧ a.left ≤ a.right
  | .box x => c ≤ x
  | .potion x => c ≤ x

lemma mkEnt_entLB (k : EKind) (x : ℚ) (rng : Rng) (c : ℚ) (h : c + 120 ≤ x) :
    entLB c (mkEnt k x rng).1 := by
  cases k with
  | box => show c ≤ x; linarith
  | potion => show c ≤ x; linarith
  | enemy =>
    refine ⟨?_, ?_⟩ <;> show _ ≤ _
    · show c ≤ x - 120
      linarith
    · show x - 120 ≤ x + 120
      linarith

lemma seedLoop_entLB (c : ℚ) : ∀ (n : ℕ) (x : ℚ) (es : List Ent) (rng : Rng),
    (∀ e ∈ es, entLB c e) → c + 120 ≤ x →
    ∀ e ∈ (seedLoop n x es rng).1, entLB c e := by
  intro n
  induction n with
  | zero => intro x es rng hes _ e he; exact hes e he
  | succ n ih =>
    intro x es rng hes hx e he
    have hd := randint_bounds 300 500 (mkEnt (choiceKind rng).1 x (choiceKind rng).2).2
      (by norm_num)
    refine ih (x + ((randint 300 500 (mkEnt (choiceKind rng).1 x (choiceKind rng).2).2).1 : ℚ))
      (es ++ [(mkEnt (choiceKind rng).1 x (choiceKind rng).2).1]) _ ?_ ?_ e he
    · intro y hy
      rcases List.mem_append.mp hy with hy | hy
      · exact hes y hy
      · rcases List.mem_singleton.mp hy with rfl
        exact mkEnt_entLB _ _ _ c hx
    · have : (0 : ℚ) ≤ ((randint 300 500 (mkEnt (choiceKind rng).1 x (choiceKind rng).2).2).1 : ℚ) := by
        positivity
      linarith

lemma entLB_update_world_x (c : ℚ) (e : Ent) (el : ℕ) (dt : ℚ) (h : entLB c e) :
    c ≤ (Ent.update el dt e).world_x := by
  cases e with
  | box x => exact h
  | potion x => exact h
  | enemy a =>
    obtain ⟨hl, hlr⟩ := h
    show c ≤ (Enemy.update el dt a).world_x
    unfold Enemy.update
    dsimp only
    split_ifs <;> dsimp only <;> linarith

/-! ### Helper lemmas about the speed ramp and per-frame speed -/

lemma speedRamp_mono (g : GameS) (h : g.speed ≤ 18) :
    g.speed ≤ (speedRamp g).speed ∧ (speedRamp g).speed ≤ 18 := by
  unfold speedRamp
  dsimp only
  split
  · split
    · constructor
      · show g.speed ≤ 18
        exact h
      · exact le_refl 18
    · rename_i hle
      constructor
      · show g.speed ≤ g.speed + SPEED_INCREASE_STEP
        norm_num [SPEED_INCREASE_STEP]
      · show g.speed + SPEED_INCREASE_STEP ≤ 18
        push_neg at hle
        exact hle
  · exact ⟨le_refl _, h⟩

lemma speedRamp_fields (g : GameS) :
    (speedRamp g).player = g.player ∧ (speedRamp g).entities = g.entities ∧
    (speedRamp g).score = g.score ∧ (speedRamp g).camera_x = g.camera_x ∧
    (speedRamp g).base_speed = g.base_speed := by
  unfold speedRamp
  dsimp only
  split <;> exact ⟨rfl, rfl, rfl, rfl, rfl⟩

lemma spawnIfNeeded_fields (g : GameS) (rng : Rng) :
    (spawnIfNeeded g rng).1.player = g.player ∧
    (spawnIfNeeded g rng).1.speed = g.speed ∧
    (spawnIfNeeded g rng).1.score = g.score ∧
    (spawnIfNeeded g rng).1.camera_x = g.camera_x ∧
    (spawnIfNeeded g rng).1.last_milestone = g.last_milestone ∧
    (spawnIfNeeded g rng).1.base_speed = g.base_speed := by
  exact ⟨rfl, rfl, rfl, rfl, rfl, rfl⟩

lemma update_speed_mono (rl il el : ℕ) (collide : PlayerS → ℚ → Ent → Bool)
    (dt : ℚ) (g : GameS) (rng : Rng) (h : g.speed ≤ 18) :
    g.speed ≤ (Game.update rl il el collide dt g rng).1.speed ∧
    (Game.update rl il el collide dt g rng).1.speed ≤ 18 := by
  unfold Game.update
  dsimp only
  split
  · exact ⟨le_refl _, h⟩
  · rw [(spawnIfNeeded_fields _ _).2.1]
    exact speedRamp_mono _ h

lemma runUpdates_speed (rl il el : ℕ) (collide : PlayerS → ℚ → Ent → Bool) :
    ∀ (dts : List ℚ) (g : GameS) (rng : Rng), g.speed ≤ 18 →
    g.speed ≤ (runUpdates rl il el collide dts g rng).1.speed ∧
    (runUpdates rl il el collide dts g rng).1.speed ≤ 18 := by
  intro dts
  induction dts with
  | nil => intro g rng h; exact ⟨le_refl _, h⟩
  | cons dt rest ih =>
    intro g rng h
    obtain ⟨h1, h2⟩ := update_speed_mono rl il el collide dt g rng h
    obtain ⟨h3, h4⟩ := ih _ _ h2
    exact ⟨le_trans h1 h3, h4⟩

/-! ### Helper lemmas about Player.update -/

lemma apply_gravity_world_x (p : PlayerS) (dt : ℚ) :
    (apply_gravity p dt).world_x = p.world_x := by
  unfold apply_gravity
  dsimp only
  split <;> rfl

lemma update_animation_world_x (rl il : ℕ) (dt : ℚ) (p : PlayerS) :
    (update_animation rl il dt p).world_x = p.world_x := by
  unfold update_animation
  dsimp only
  split
  · rfl
  · split
    · rfl
    · split <;> rfl

lemma player_update_world_x (rl il : ℕ) (dt speed : ℚ) (p : PlayerS) :
    (Player.update rl il dt speed p).world_x = p.world_x + speed * (dt / frameRef) := by
  unfold Player.update
  dsimp only
  rw [update_animation_world_x]
  split
  · dsimp only
    rw [apply_gravity_world_x]
  · rw [apply_gravity_world_x]

lemma apply_gravity_alive (p : PlayerS) (dt : ℚ) :
    (apply_gravity p dt).alive = p.alive := by
  unfold apply_gravity
  dsimp only
  split <;> rfl

lemma update_animation_alive (rl il : ℕ) (dt : ℚ) (p : PlayerS) :
    (update_animation rl il dt p).alive = p.alive := by
  unfold update_animation
  dsimp only
  split
  · rfl
  · split
    · rfl
    · split <;> rfl

lemma player_update_alive (rl il : ℕ) (dt speed : ℚ) (p : PlayerS) :
    (Player.update rl il dt speed p).alive = p.alive := by
  unfold Player.update
  dsimp only
  rw [update_animation_alive]
  split
  · dsimp only
    rw [apply_gravity_alive]
  · rw [apply_gravity_alive]

/-! ### Concrete fixtures used by witnesses and counterexamples -/

/-- A concrete random stream: all integer draws 0, all uniform draws 2. -/
def rngZero : Rng := { ints := fun _ => 0, rats := fun _ => 2, i := 0, r := 0 }

/-- A concrete alive player with exactly one health point. -/
def pOne : PlayerS :=
  { world_x := 0, y := GROUND_Y, vel_y := 0, state := .run, frame := 2,
    frame_timer := 0, frame_speed := 100, alive := true, health := 1 }

/-- A concrete patrolling enemy. -/
def aPat : EnemyS := Enemy.init 700 2

/-- A concrete session state whose score (20) is two milestone
boundaries past the last recorded milestone (0). -/
def gTwenty : GameS :=
  { player := Player.init 100, camera_x := 0, base_speed := 4, speed := 5,
    score := 20, last_milestone := 0, entities := [], potion_weight := 1/20 }

/-- A concrete session state whose score (10) is one milestone boundary
past the last recorded milestone (-1 is two behind, milestone becomes 1). -/
def gTen : GameS :=
  { player := Player.init 100, camera_x := 0, base_speed := 4, speed := 4,
    score := 10, last_milestone := -1, entities := [], potion_weight := 1/20 }

/-! ### Claim theorems -/

/-- C1: on a frame where the player's bounds overlap an enemy's bounds,
if the player's health is exactly 1 at contact the enemy-attack sound is
triggered and the player dies silently (health 0, alive false, state
dead, animation frame reset) with neither the hit sound nor the death
sound; if health is greater than 1, exactly one point of damage is
applied with the hit sound and no enemy-attack sound; in both cases the
enemy is removed from the active set. -/
theorem c1_enemy_contact (p : PlayerS) (a : EnemyS) (collide : Ent → Bool)
    (hA : p.alive = true) (hC : collide (Ent.enemy a) = true) :
    (collisionGo collide [Ent.enemy a] [Ent.enemy a] p []).2.1 = [] ∧
    (p.health = 1 →
      (collisionGo collide [Ent.enemy a] [Ent.enemy a] p []).1 =
        { p with health := 0, alive := false, state := .dead, frame := 0 } ∧
      (collisionGo collide [Ent.enemy a] [Ent.enemy a] p []).2.2 = [Sound.enemyAttack]) ∧
    (1 < p.health →
      (collisionGo collide [Ent.enemy a] [Ent.enemy a] p []).1 =
        { p with health := p.health - 1 } ∧
      (collisionGo collide [Ent.enemy a] [Ent.enemy a] p []).2.2 = [Sound.hit]) := by
  have hstep : collisionGo collide [Ent.enemy a] [Ent.enemy a] p [] =
      ((take_damage p 1).1, [Ent.enemy a].erase (Ent.enemy a),
       [] ++ (if p.health = 1 then [Sound.enemyAttack] else []) ++ (take_damage p 1).2) := by
    simp only [collisionGo, if_pos hC]
  rw [hstep, List.erase_cons_head]
  refine ⟨rfl, ?_, ?_⟩
  · intro h1
    rw [take_damage_one_final p hA h1]
    exact ⟨rfl, by simp [h1]⟩
  · intro h1
    have hne : ¬ p.health = 1 := by omega
    rw [take_damage_one_step p hA (by omega)]
    exact ⟨rfl, by simp [hne]⟩

/-- C1 witness: a concrete alive player with health 1 overlapping a
concrete enemy: the enemy is removed, the player dies, and exactly the
enemy-attack signal is emitted. -/
theorem c1_enemy_contact_witness :
    (collisionGo (fun _ => true) [Ent.enemy aPat] [Ent.enemy aPat] pOne []).2.1 = [] ∧
    (collisionGo (fun _ => true) [Ent.enemy aPat] [Ent.enemy aPat] pOne []).1.alive = false ∧
    (collisionGo (fun _ => true) [Ent.enemy aPat] [Ent.enemy aPat] pOne []).1.health = 0 ∧
    (collisionGo (fun _ => true) [Ent.enemy aPat] [Ent.enemy aPat] pOne []).2.2
      = [Sound.enemyAttack] := by
  have h := c1_enemy_contact pOne aPat (fun _ => true) rfl rfl
  have h1 := h.2.1 rfl
  exact ⟨h.1, by rw [h1.1], by rw [h1.1], h1.2⟩

/-- C2: player health always stays in [0, PLAYER_MAX_HEALTH]; heal never
pushes it above the maximum; a sequence of n unit-damage calls from full
health leaves health 3 - n and the player alive exactly while n < 3, so
health strictly decreases until it reaches 0 exactly once; once dead,
take_damage and heal are permanent no-ops. -/
theorem c2_health_invariant (x : ℚ) (ops : List POp) (n : ℕ) :
    (0 ≤ (applyOps ops (Player.init x)).1.health ∧
      (applyOps ops (Player.init x)).1.health ≤ PLAYER_MAX_HEALTH) ∧
    (∀ q : PlayerS, q.health ≤ PLAYER_MAX_HEALTH →
      (heal q 1).1.health ≤ PLAYER_MAX_HEALTH) ∧
    (n ≤ 3 →
      (applyOps (List.replicate n .dmg) (Player.init x)).1.health = 3 - (n : ℤ) ∧
      ((applyOps (List.replicate n .dmg) (Player.init x)).1.alive = true ↔ n < 3)) ∧
    (3 ≤ n →
      (applyOps (List.replicate n .dmg) (Player.init x)).1.health = 0 ∧
      (applyOps (List.replicate n .dmg) (Player.init x)).1.alive = false) ∧
    (∀ q : PlayerS, q.alive = false →
      take_damage q 1 = (q, []) ∧ heal q 1 = (q, []) ∧
      ∀ ops2 : List POp, (applyOps ops2 q).1 = q) := by
  have hq0a : (Player.init x).alive = true := rfl
  have hq0h : (Player.init x).health = 3 := rfl
  have hq1 : (applyOp (Player.init x) .dmg).1.alive = true ∧
      (applyOp (Player.init x) .dmg).1.health = 2 := by
    rw [applyOp, take_damage_one_step (Player.init x) hq0a (by omega)]
    exact ⟨hq0a, by show (Player.init x).health - 1 = 2; omega⟩
  have hq2 : (applyOp (applyOp (Player.init x) .dmg).1 .dmg).1.alive = true ∧
      (applyOp (applyOp (Player.init x) .dmg).1 .dmg).1.health = 1 := by
    rw [applyOp, take_damage_one_step _ hq1.1 (by omega)]
    exact ⟨hq1.1, by show (applyOp (Player.init x) .dmg).1.health - 1 = 1; omega⟩
  have hq3 : (applyOp (applyOp (applyOp (Player.init x) .dmg).1 .dmg).1 .dmg).1.alive = false ∧
      (applyOp (applyOp (applyOp (Player.init x) .dmg).1 .dmg).1 .dmg).1.health = 0 := by
    rw [applyOp, take_damage_one_final _ hq2.1 hq2.2]
    exact ⟨rfl, rfl⟩
  have hthree : (applyOps (List.replicate 3 .dmg) (Player.init x)).1.alive = false ∧
      (applyOps (List.replicate 3 .dmg) (Player.init x)).1.health = 0 := hq3
  refine ⟨?_, ?_, ?_, ?_, ?_⟩
  · have h := (applyOps_invH ops (Player.init x) (invH_init x)).1
    exact ⟨h.1, h.2.1⟩
  · intro q hq
    cases hval : q.alive with
    | false => rw [heal_dead q 1 hval]; exact hq
    | true =>
      rw [heal_alive q hval]
      exact min_le_left _ _
  · intro hn
    interval_cases n
    · exact ⟨by rw [show ((applyOps (List.replicate 0 .dmg) (Player.init x)).1) = Player.init x from rfl]; omega,
        by simp [show (applyOps [] (Player.init x)).1.alive = true from hq0a]⟩
    · exact ⟨by show (applyOp (Player.init x) .dmg).1.health = 3 - (1:ℤ); omega,
        by simp [show (applyOps [POp.dmg] (Player.init x)).1.alive = true from hq1.1]⟩
    · exact ⟨by show (applyOp (applyOp (Player.init x) .dmg).1 .dmg).1.health = 3 - (2:ℤ); omega,
        by simp [show (applyOps [POp.dmg, POp.dmg] (Player.init x)).1.alive = true from hq2.1]⟩
    · exact ⟨by show (applyOp (applyOp (applyOp (Player.init x) .dmg).1 .dmg).1 .dmg).1.health = 3 - (3:ℤ); omega,
        by simp [show (applyOps [POp.dmg, POp.dmg, POp.dmg] (Player.init x)).1.alive = false from hq3.1]⟩
  · intro hn
    rw [show n = 3 + (n - 3) from by omega, List.replicate_add, applyOps_append,
      applyOps_dead _ _ hthree.1]
    exact ⟨hthree.2, hthree.1⟩
  · intro q hq
    exact ⟨take_damage_dead q 1 hq, heal_dead q 1 hq, fun ops2 => applyOps_dead ops2 q hq⟩

/-- C2 witness: instantiated at a damage-heal sequence and at n = 3. -/
theorem c2_health_invariant_witness :
    (0 ≤ (applyOps [POp.dmg, POp.hl] (Player.init 0)).1.health ∧
      (applyOps [POp.dmg, POp.hl] (Player.init 0)).1.health ≤ PLAYER_MAX_HEALTH) ∧
    (applyOps (List.replicate 3 .dmg) (Player.init 0)).1.health = 0 ∧
    (applyOps (List.replicate 3 .dmg) (Player.init 0)).1.alive = false := by
  have h := c2_health_invariant 0 [POp.dmg, POp.hl] 3
  exact ⟨h.1, h.2.2.2.1 (by norm_num)⟩

/-- C10: under the unit damage amounts the simulation actually passes,
the generic death path of Player.die (which plays the death sound) is
unreachable: no sequence of unit-damage and unit-heal operations from
the initial player ever emits the death signal, and the death signal
can only be emitted by take_damage when the amount is at least 2 while
health is at least 2. -/
theorem c10_death_sound (x : ℚ) (ops : List POp) (p : PlayerS) (amt : ℤ)
    (hA : p.alive = true) (hH : 1 ≤ p.health) :
    Sound.death ∉ (applyOps ops (Player.init x)).2 ∧
    (Sound.death ∈ (take_damage p amt).2 → 2 ≤ amt ∧ 2 ≤ p.health) := by
  constructor
  · exact (applyOps_invH ops _ (invH_init x)).2
  · intro hmem
    by_cases hone : p.health = 1
    · have hsil : take_damage p amt =
          ({ p with health := 0, alive := false, state := .dead, frame := 0 }, []) := by
        simp [take_damage, hA, hone]
      rw [hsil] at hmem
      simp at hmem
    · by_cases hle : p.health - amt ≤ 0
      · constructor <;> omega
      · have hstep : take_damage p amt = ({ p with health := p.health - amt }, [Sound.hit]) := by
          simp [take_damage, hA, hone, hle]
        rw [hstep] at hmem
        simp at hmem

/-- C10 witness: three unit damages from full health emit no death
signal; the implication instantiated at amount 3 with full health. -/
theorem c10_death_sound_witness :
    Sound.death ∉ (applyOps [POp.dmg, POp.dmg, POp.dmg] (Player.init 0)).2 ∧
    (Sound.death ∈ (take_damage (Player.init 0) 3).2 →
      2 ≤ (3 : ℤ) ∧ 2 ≤ (Player.init 0).health) := by
  have h := c10_death_sound 0 [POp.dmg, POp.dmg, POp.dmg] (Player.init 0) 3 rfl (by norm_num [Player.init, PLAYER_MAX_HEALTH])
  exact ⟨h.1, h.2⟩

/-- C3: in the cull pass an active entity is removed exactly when its
world_x is more than 220 units behind the player's world_x; the score
grows by the count of removed entities, each of which the player's
world_x necessarily exceeds (so each removal awards exactly 1 and the
guard's other branch awards 0); consequently the score is monotone
non-decreasing across the cull pass and across whole frames. -/
theorem c3_cull_score (px : ℚ) (es : List Ent) (s : ℕ) :
    (cullPass px es s).1 = es.filter (fun e => !decide (e.world_x < px - 220)) ∧
    (cullPass px es s).2 = s + es.countP (fun e => decide (e.world_x < px - 220)) ∧
    (∀ e ∈ es, e.world_x < px - 220 → e.world_x < px) ∧
    s ≤ (cullPass px es s).2 ∧
    (∀ (rl il el : ℕ) (collide : PlayerS → ℚ → Ent → Bool) (dt : ℚ) (g : GameS) (rng : Rng),
      g.score ≤ (Game.update rl il el collide dt g rng).1.score) := by
  have hspec := cullPass_spec px es s
  refine ⟨?_, ?_, ?_, ?_, ?_⟩
  · rw [hspec]
  · rw [hspec]
  · intro e _ h
    linarith
  · rw [hspec]
    exact Nat.le_add_right _ _
  · intro rl il el collide dt g rng
    unfold Game.update
    dsimp only
    split
    · exact le_refl _
    · rw [(spawnIfNeeded_fields _ _).2.2.1, (speedRamp_fields _).2.2.1]
      exact cullGo_score_mono _ _ _ _

/-- C3 witness: a concrete cull: the entity 900 behind the player is
removed and scores, the entity 100 behind is kept. -/
theorem c3_cull_score_witness :
    (cullPass 1000 [Ent.box 100, Ent.box 900] 0).1 = [Ent.box 900] ∧
    (cullPass 1000 [Ent.box 100, Ent.box 900] 0).2 = 1 ∧
    (Ent.box 100).world_x < 1000 ∧
    0 ≤ (cullPass 1000 [Ent.box 100, Ent.box 900] 0).2 := by
  have h := c3_cull_score 1000 [Ent.box 100, Ent.box 900] 0
  have hc1 : (Ent.box 100).world_x < (1000 : ℚ) - 220 := by norm_num [Ent.world_x]
  have hc2 : ¬ (Ent.box 900).world_x < (1000 : ℚ) - 220 := by norm_num [Ent.world_x]
  refine ⟨?_, ?_, h.2.2.1 (Ent.box 100) (by simp) hc1, h.2.2.2.1⟩
  · rw [h.1]
    simp [List.filter_cons, hc1, hc2]
  · rw [h.2.1]
    simp [List.countP_cons, hc1, hc2]

/-- C4 counterexample: in a tick where the score has reached 20 while
the last recorded milestone is 0, two milestone boundaries have been
crossed (milestone 2 exceeds 0 by two), yet the ramp raises the speed
by a single increment (5 becomes 5.5), not by one increment per crossed
boundary (which would give 6). -/
theorem c4_counterexample :
    (20 : ℤ) / (SCORE_STEP : ℤ) = 2 ∧ gTwenty.score = 20 ∧ gTwenty.last_milestone = 0 ∧
    gTwenty.speed = 5 ∧
    (speedRamp gTwenty).speed = 5 + SPEED_INCREASE_STEP ∧
    ¬ (speedRamp gTwenty).speed = 5 + 2 * SPEED_INCREASE_STEP := by
  refine ⟨by decide, rfl, rfl, rfl, ?_, ?_⟩ <;>
    norm_num [speedRamp, gTwenty, SPEED_INCREASE_STEP, SCORE_STEP]

/-- C4 (amended): whenever milestone = score div SCORE_STEP exceeds the
last recorded milestone, the milestone is recorded and the speed rises
by exactly one increment (0.5) clamped at the cap 18 — once per tick
regardless of how many boundaries were crossed in that tick; otherwise
the ramp is the identity; session speed starts at most 18 and is
monotone non-decreasing and capped at 18 over any run of frames. -/
theorem c4_speed_ramp (g : GameS) (diff : Difficulty) (rng rng2 : Rng)
    (rl il el : ℕ) (collide : PlayerS → ℚ → Ent → Bool) (dts : List ℚ) :
    (g.last_milestone < (g.score : ℤ) / (SCORE_STEP : ℤ) →
      (speedRamp g).last_milestone = (g.score : ℤ) / (SCORE_STEP : ℤ) ∧
      (speedRamp g).speed = min (g.speed + SPEED_INCREASE_STEP) 18) ∧
    (¬ g.last_milestone < (g.score : ℤ) / (SCORE_STEP : ℤ) → speedRamp g = g) ∧
    (g.speed ≤ 18 → g.speed ≤ (speedRamp g).speed ∧ (speedRamp g).speed ≤ 18) ∧
    (Game.init diff rng).1.speed ≤ 18 ∧
    (g.speed ≤ 18 →
      g.speed ≤ (runUpdates rl il el collide dts g rng2).1.speed ∧
      (runUpdates rl il el collide dts g rng2).1.speed ≤ 18) := by
  refine ⟨?_, ?_, fun h => speedRamp_mono g h, ?_, fun h => runUpdates_speed rl il el collide dts g rng2 h⟩
  · intro h
    unfold speedRamp
    rw [if_pos h]
    refine ⟨rfl, ?_⟩
    show (if 18 < g.speed + SPEED_INCREASE_STEP then (18:ℚ) else g.speed + SPEED_INCREASE_STEP)
        = min (g.speed + SPEED_INCREASE_STEP) 18
    rw [min_def]
    split_ifs <;> first | rfl | linarith
  · intro h
    unfold speedRamp
    rw [if_neg h]
  · show PLAYER_START_SPEED_BASE * DIFFICULTY_MOD diff ≤ 18
    cases diff <;> norm_num [PLAYER_START_SPEED_BASE, DIFFICULTY_MOD]

/-- C4 witness: a concrete ramp step where the milestone rises from -1
to 1 adds exactly one clamped increment; the initial session speed obeys
the cap. -/
theorem c4_speed_ramp_witness :
    (speedRamp gTen).last_milestone = (10 : ℤ) / (SCORE_STEP : ℤ) ∧
    (speedRamp gTen).speed = min (gTen.speed + SPEED_INCREASE_STEP) 18 ∧
    (Game.init .Normal rngZero).1.speed ≤ 18 ∧
    gTen.speed ≤ (runUpdates 1 1 1 (fun _ _ _ => false) [] gTen rngZero).1.speed := by
  have h := c4_speed_ramp gTen .Normal rngZero rngZero 1 1 1 (fun _ _ _ => false) []
  have h1 := h.1 (by decide)
  have h2 : gTen.score = 10 := rfl
  refine ⟨?_, h1.2, h.2.2.2.1, (h.2.2.2.2 (by norm_num [gTen])).1⟩
  rw [h1.1, h2]
  norm_num

/-- Patrol bound fields are unchanged by Enemy.update. -/
lemma enemy_update_left (el : ℕ) (dt : ℚ) (a : EnemyS) :
    (Enemy.update el dt a).left = a.left := by
  unfold Enemy.update
  dsimp only
  split_ifs <;> rfl

lemma enemy_update_right (el : ℕ) (dt : ℚ) (a : EnemyS) :
    (Enemy.update el dt a).right = a.right := by
  unfold Enemy.update
  dsimp only
  split_ifs <;> rfl

lemma enemy_update_bounds (el : ℕ) (dt : ℚ) (a : EnemyS) (h : a.left ≤ a.right) :
    a.left ≤ (Enemy.update el dt a).world_x ∧ (Enemy.update el dt a).world_x ≤ a.right := by
  unfold Enemy.update
  dsimp only
  split_ifs <;> dsimp only <;> constructor <;> linarith

lemma foldl_patrol_fields (el : ℕ) (dts : List ℚ) : ∀ a : EnemyS,
    (List.foldl (fun b d => Enemy.update el d b) a dts).left = a.left ∧
    (List.foldl (fun b d => Enemy.update el d b) a dts).right = a.right := by
  induction dts with
  | nil => intro a; exact ⟨rfl, rfl⟩
  | cons d rest ih =>
    intro a
    have h := ih (Enemy.update el d a)
    simp only [List.foldl_cons]
    rw [h.1, h.2, enemy_update_left, enemy_update_right]
    exact ⟨rfl, rfl⟩

/-- C6: for every enemy and every sequence of elapsed-time deltas,
including arbitrarily large single steps, the enemy's world_x after
each update lies within the patrol bounds [spawn - 120, spawn + 120];
when the pre-clamp position crosses a bound, the position is clamped to
that bound and the direction reverses. -/
theorem c6_enemy_patrol (el : ℕ) (spawn spd dt : ℚ) (dts : List ℚ) :
    (spawn - 120 ≤
        (List.foldl (fun b d => Enemy.update el d b) (Enemy.init spawn spd) (dts ++ [dt])).world_x ∧
      (List.foldl (fun b d => Enemy.update el d b) (Enemy.init spawn spd) (dts ++ [dt])).world_x
        ≤ spawn + 120) ∧
    (∀ a : EnemyS, a.world_x + (a.dir : ℚ) * a.speed * (dt / frameRef) < a.left →
      (Enemy.update el dt a).world_x = a.left ∧ (Enemy.update el dt a).dir = 1) ∧
    (∀ a : EnemyS, ¬ a.world_x + (a.dir : ℚ) * a.speed * (dt / frameRef) < a.left →
      a.right < a.world_x + (a.dir : ℚ) * a.speed * (dt / frameRef) →
      (Enemy.update el dt a).world_x = a.right ∧ (Enemy.update el dt a).dir = -1) := by
  refine ⟨?_, ?_, ?_⟩
  · rw [List.foldl_concat]
    have hfields := foldl_patrol_fields el dts (Enemy.init spawn spd)
    have hl : (List.foldl (fun b d => Enemy.update el d b) (Enemy.init spawn spd) dts).left
        = spawn - 120 := hfields.1
    have hr : (List.foldl (fun b d => Enemy.update el d b) (Enemy.init spawn spd) dts).right
        = spawn + 120 := hfields.2
    have hb := enemy_update_bounds el dt
      (List.foldl (fun b d => Enemy.update el d b) (Enemy.init spawn spd) dts)
      (by rw [hl, hr]; linarith)
    rw [hl, hr] at hb
    exact hb
  · intro a h
    unfold Enemy.update
    dsimp only
    rw [if_pos h]
    constructor <;> (dsimp only; split_ifs <;> rfl)
  · intro a h1 h2
    unfold Enemy.update
    dsimp only
    rw [if_neg h1, if_pos h2]
    constructor <;> (dsimp only; split_ifs <;> rfl)

/-- C6 witness: a huge 3000 ms step from the spawn point stays inside
the patrol bounds, and a concrete overshoot past the left bound is
clamped there with the direction reversed. -/
theorem c6_enemy_patrol_witness :
    ((0 : ℚ) - 120 ≤
        (List.foldl (fun b d => Enemy.update 1 d b) (Enemy.init 0 2) ([] ++ [3000])).world_x ∧
      (List.foldl (fun b d => Enemy.update 1 d b) (Enemy.init 0 2) ([] ++ [3000])).world_x
        ≤ 0 + 120) ∧
    (Enemy.update 1 3000 (Enemy.init 0 2)).world_x = (Enemy.init 0 2).left ∧
    (Enemy.update 1 3000 (Enemy.init 0 2)).dir = 1 := by
  have h := c6_enemy_patrol 1 0 2 3000 []
  have h2 := h.2.1 (Enemy.init 0 2) (by norm_num [Enemy.init, frameRef])
  exact ⟨h.1, h2.1, h2.2⟩

lemma spawnLoop_stop (bound pw : ℚ) (n : ℕ) (f : ℚ) (es : List Ent) (rng : Rng)
    (h : ¬ f < bound) :
    spawnLoop bound pw (n + 1) f es rng = (f, es, rng) := by
  rw [spawnLoop, if_neg h]

/-- A concrete session state whose furthest entity (1600) already
satisfies the spawner's real stopping bound camera_x + WIDTH +
MIN_SPAWN_DIST = 1560, so the spawn pass adds nothing. -/
def gStalled : GameS :=
  { player := Player.init 336, camera_x := 0, base_speed := 4, speed := 4,
    score := 0, last_milestone := 0, entities := [Ent.box 1600], potion_weight := 1/20 }

/-- C5 counterexample: after the spawn pass on gStalled the furthest
active entity sits 1600, which is only 640 ahead of the camera leading
edge (camera_x + WIDTH = 960) — not the claimed viewportWidth +
minSpawnDistance = 1560 ahead of the leading edge (which would require
world_x at least 2520). -/
theorem c5_counterexample :
    (spawnIfNeeded gStalled rngZero).1.entities = [Ent.box 1600] ∧
    furthestEnt (spawnIfNeeded gStalled rngZero).1.entities gStalled.player.world_x = 1600 ∧
    ¬ (gStalled.camera_x + WIDTH) + (WIDTH + (MIN_SPAWN_DIST : ℚ)) ≤
      furthestEnt (spawnIfNeeded gStalled rngZero).1.entities gStalled.player.world_x := by
  have hfur : furthestEnt gStalled.entities gStalled.player.world_x = 1600 := by
    show max (Ent.world_x (Ent.box 1600)) (Player.init 336).world_x = 1600
    rw [show Ent.world_x (Ent.box 1600) = 1600 from rfl,
      show (Player.init 336).world_x = 336 from rfl]
    exact max_eq_left (by norm_num)
  have hstop : ¬ (1600 : ℚ) < gStalled.camera_x + WIDTH + (MIN_SPAWN_DIST : ℚ) := by
    norm_num [gStalled, WIDTH, MIN_SPAWN_DIST]
  have hent : (spawnIfNeeded gStalled rngZero).1.entities = gStalled.entities := by
    show (spawnLoop (gStalled.camera_x + WIDTH + (MIN_SPAWN_DIST : ℚ)) gStalled.potion_weight
        ((⌈gStalled.camera_x + WIDTH + (MIN_SPAWN_DIST : ℚ) -
            furthestEnt gStalled.entities gStalled.player.world_x⌉).toNat + 1)
        (furthestEnt gStalled.entities gStalled.player.world_x) gStalled.entities rngZero).2.1
      = gStalled.entities
    rw [hfur, spawnLoop_stop _ _ _ _ _ _ hstop]
  have hent2 : (spawnIfNeeded gStalled rngZero).1.entities = [Ent.box 1600] := hent
  have hfur2 : furthestEnt (spawnIfNeeded gStalled rngZero).1.entities gStalled.player.world_x
      = 1600 := by
    rw [hent2]
    exact hfur
  refine ⟨hent2, hfur2, ?_⟩
  rw [hfur2]
  norm_num [gStalled, WIDTH, MIN_SPAWN_DIST]

/-- C5 (amended): after every spawn pass the furthest active entity (or
the player when none exists) has world_x at least camera_x + WIDTH +
MIN_SPAWN_DIST — i.e. at least MIN_SPAWN_DIST (600) ahead of the
camera's leading edge camera_x + WIDTH, not WIDTH + MIN_SPAWN_DIST
ahead of it; while the bound is violated the spawner repeatedly
generates one entity at furthest + uniformRandom(MIN_SPAWN_DIST,
MAX_SPAWN_DIST), strictly ahead of the current furthest. -/
theorem c5_spawn_invariant (g : GameS) (rng : Rng) :
    g.camera_x + WIDTH + (MIN_SPAWN_DIST : ℚ) ≤
      furthestEnt (spawnIfNeeded g rng).1.entities g.player.world_x ∧
    (∃ new, (spawnIfNeeded g rng).1.entities = g.entities ++ new ∧
       List.Chain (fun a b => a + (MIN_SPAWN_DIST : ℚ) ≤ b ∧ b ≤ a + (MAX_SPAWN_DIST : ℚ))
         (furthestEnt g.entities g.player.world_x) (new.map Ent.world_x)) :=
  spawnIfNeeded_spec g rng

/-- One airborne gravity step below the ground threshold, written out. -/
lemma apply_gravity_air (p : PlayerS) (dt : ℚ)
    (h : ¬ GROUND_Y ≤ p.y + (p.vel_y + GRAVITY * (dt / frameRef)) * (dt / frameRef)) :
    apply_gravity p dt =
      { p with y := p.y + (p.vel_y + GRAVITY * (dt / frameRef)) * (dt / frameRef),
               vel_y := p.vel_y + GRAVITY * (dt / frameRef) } := by
  unfold apply_gravity
  rw [if_neg h]

/-- A concrete airborne player high above the ground. -/
def pAir : PlayerS :=
  { world_x := 0, y := 0, vel_y := 0, state := .jump, frame := 0,
    frame_timer := 0, frame_speed := 100, alive := true, health := 3 }

/-- C7 counterexample: one gravity step of the full reference frame
(16.67 ms) from rest yields y = 7/10, while two successive steps of
half that elapsed time yield y = 21/40; the velocities agree but the
positions differ, so the integration is not invariant under subdividing
the elapsed time. -/
theorem c7_counterexample :
    (apply_gravity pAir (1667/100)).y = 7/10 ∧
    (apply_gravity (apply_gravity pAir (1667/200)) (1667/200)).y = 21/40 ∧
    (apply_gravity pAir (1667/100)).vel_y
      = (apply_gravity (apply_gravity pAir (1667/200)) (1667/200)).vel_y ∧
    ¬ (apply_gravity pAir (1667/100)).y
      = (apply_gravity (apply_gravity pAir (1667/200)) (1667/200)).y := by
  have e1 := apply_gravity_air pAir (1667/100)
    (by norm_num [pAir, GRAVITY, frameRef, GROUND_Y, HEIGHT, GROUND_HEIGHT])
  have e2 := apply_gravity_air pAir (1667/200)
    (by norm_num [pAir, GRAVITY, frameRef, GROUND_Y, HEIGHT, GROUND_HEIGHT])
  have hcond : ¬ GROUND_Y ≤ (apply_gravity pAir (1667/200)).y +
      ((apply_gravity pAir (1667/200)).vel_y + GRAVITY * ((1667/200) / frameRef)) *
        ((1667/200) / frameRef) := by
    rw [e2]
    norm_num [pAir, GRAVITY, frameRef, GROUND_Y, HEIGHT, GROUND_HEIGHT]
  have e3 := apply_gravity_air (apply_gravity pAir (1667/200)) (1667/200) hcond
  refine ⟨?_, ?_, ?_, ?_⟩
  · rw [e1]
    norm_num [pAir, GRAVITY, frameRef]
  · rw [e3, e2]
    norm_num [pAir, GRAVITY, frameRef]
  · rw [e1, e3, e2]
    norm_num [pAir, GRAVITY, frameRef]
  · rw [e1, e3, e2]
    norm_num [pAir, GRAVITY, frameRef]

/-- C7 (amended): the velocity update is invariant under subdividing the
elapsed time — one airborne step of dt produces the same vel_y as two
successive airborne steps of dt/2 — but the position is not: the single
step lands exactly GRAVITY/4 * (dt/frameRef)^2 lower (further along
gravity) than the two half steps, so gravity integration is only
approximately frame-rate independent. -/
theorem c7_gravity_subdivision (p : PlayerS) (dt : ℚ)
    (h1 : p.y + (p.vel_y + GRAVITY * (dt / frameRef)) * (dt / frameRef) < GROUND_Y)
    (h2 : p.y + (p.vel_y + GRAVITY * ((dt/2) / frameRef)) * ((dt/2) / frameRef) < GROUND_Y)
    (h3 : p.y + (p.vel_y + GRAVITY * ((dt/2) / frameRef)) * ((dt/2) / frameRef)
        + (p.vel_y + GRAVITY * ((dt/2) / frameRef) + GRAVITY * ((dt/2) / frameRef))
          * ((dt/2) / frameRef) < GROUND_Y) :
    (apply_gravity p dt).vel_y
      = (apply_gravity (apply_gravity p (dt/2)) (dt/2)).vel_y ∧
    (apply_gravity p dt).y
      = (apply_gravity (apply_gravity p (dt/2)) (dt/2)).y
        + (GRAVITY / 4) * (dt / frameRef)^2 := by
  have e1 := apply_gravity_air p dt (not_le.mpr h1)
  have e2 := apply_gravity_air p (dt/2) (not_le.mpr h2)
  have hy2 : (apply_gravity p (dt/2)).y
      = p.y + (p.vel_y + GRAVITY * ((dt/2) / frameRef)) * ((dt/2) / frameRef) := by rw [e2]
  have hv2 : (apply_gravity p (dt/2)).vel_y
      = p.vel_y + GRAVITY * ((dt/2) / frameRef) := by rw [e2]
  have hcond : ¬ GROUND_Y ≤ (apply_gravity p (dt/2)).y +
      ((apply_gravity p (dt/2)).vel_y + GRAVITY * ((dt/2) / frameRef)) * ((dt/2) / frameRef) := by
    rw [hy2, hv2]
    exact not_le.mpr h3
  have e3 := apply_gravity_air (apply_gravity p (dt/2)) (dt/2) hcond
  have hy3 : (apply_gravity (apply_gravity p (dt/2)) (dt/2)).y
      = (apply_gravity p (dt/2)).y +
        ((apply_gravity p (dt/2)).vel_y + GRAVITY * ((dt/2) / frameRef)) * ((dt/2) / frameRef) := by
    rw [e3]
  have hv3 : (apply_gravity (apply_gravity p (dt/2)) (dt/2)).vel_y
      = (apply_gravity p (dt/2)).vel_y + GRAVITY * ((dt/2) / frameRef) := by
    rw [e3]
  constructor
  · rw [hv3, hv2, e1]
    show p.vel_y + GRAVITY * (dt / frameRef)
      = p.vel_y + GRAVITY * ((dt/2) / frameRef) + GRAVITY * ((dt/2) / frameRef)
    ring
  · rw [hy3, hy2, hv2, e1]
    show p.y + (p.vel_y + GRAVITY * (dt / frameRef)) * (dt / frameRef)
      = p.y + (p.vel_y + GRAVITY * ((dt/2) / frameRef)) * ((dt/2) / frameRef)
        + (p.vel_y + GRAVITY * ((dt/2) / frameRef) + GRAVITY * ((dt/2) / frameRef))
          * ((dt/2) / frameRef)
        + (GRAVITY / 4) * (dt / frameRef)^2
    ring

/-- C7 witness: the amended subdivision law at the concrete airborne
start pAir and dt = 16.67 ms. -/
theorem c7_gravity_subdivision_witness :
    (apply_gravity pAir (1667/100)).vel_y
      = (apply_gravity (apply_gravity pAir ((1667/100)/2)) ((1667/100)/2)).vel_y ∧
    (apply_gravity pAir (1667/100)).y
      = (apply_gravity (apply_gravity pAir ((1667/100)/2)) ((1667/100)/2)).y
        + (GRAVITY / 4) * ((1667/100) / frameRef)^2 :=
  c7_gravity_subdivision pAir (1667/100)
    (by norm_num [pAir, GRAVITY, frameRef, GROUND_Y, HEIGHT, GROUND_HEIGHT])
    (by norm_num [pAir, GRAVITY, frameRef, GROUND_Y, HEIGHT, GROUND_HEIGHT])
    (by norm_num [pAir, GRAVITY, frameRef, GROUND_Y, HEIGHT, GROUND_HEIGHT])

/-- C8 counterexample: the first seeded entity sits at world_x 600 while
the player starts at world_x 100, so the seeding starts 500 — not
600 — units ahead of the player. -/
theorem c8_counterexample :
    ((Game.init .Normal rngZero).1.entities.map Ent.world_x).head? = some 600 ∧
    (Game.init .Normal rngZero).1.player.world_x = 100 ∧
    ¬ ((Game.init .Normal rngZero).1.entities.map Ent.world_x).head?
      = some ((Game.init .Normal rngZero).1.player.world_x + 600) := by
  obtain ⟨ps, hmap, hlen, hchain, hhead⟩ := seedLoop_spec 5 600 [] rngZero
  have hmap2 : (Game.init .Normal rngZero).1.entities.map Ent.world_x = ps := by
    rw [show (Game.init .Normal rngZero).1.entities = (seedLoop 5 600 [] rngZero).1 from rfl,
      hmap]
    simp
  have hh : ((Game.init .Normal rngZero).1.entities.map Ent.world_x).head? = some 600 := by
    rw [hmap2]
    exact hhead (by norm_num)
  have hp : (Game.init .Normal rngZero).1.player.world_x = 100 := rfl
  refine ⟨hh, hp, ?_⟩
  rw [hh, hp]
  norm_num

/-- C8 (amended): initial seeding places exactly 5 entities at strictly
increasing world positions with consecutive offsets uniform in
[300, 500], starting at world_x 600 — which is 500 units ahead of the
player's start world_x 100 (not 600 units ahead). -/
theorem c8_initial_seed (diff : Difficulty) (rng : Rng) :
    (Game.init diff rng).1.entities.length = 5 ∧
    ((Game.init diff rng).1.entities.map Ent.world_x).head? = some 600 ∧
    List.Chain' (fun a b => a + 300 ≤ b ∧ b ≤ a + 500)
      ((Game.init diff rng).1.entities.map Ent.world_x) ∧
    (Game.init diff rng).1.player.world_x = 100 ∧
    (600 : ℚ) = (Game.init diff rng).1.player.world_x + 500 := by
  obtain ⟨ps, hmap, hlen, hchain, hhead⟩ := seedLoop_spec 5 600 [] rng
  have hmap2 : (Game.init diff rng).1.entities.map Ent.world_x = ps := by
    rw [show (Game.init diff rng).1.entities = (seedLoop 5 600 [] rng).1 from rfl, hmap]
    simp
  refine ⟨?_, ?_, ?_, rfl,
    by rw [show (Game.init diff rng).1.player.world_x = (100:ℚ) from rfl]; norm_num⟩
  · have hlen2 := congrArg List.length hmap2
    rw [List.length_map] at hlen2
    rw [hlen2, hlen]
  · rw [hmap2]
    exact hhead (by norm_num)
  · rw [hmap2]
    exact hchain

/-- One frame with a live player, written out as its stages. -/
lemma game_update_alive (rl il el : ℕ) (collide : PlayerS → ℚ → Ent → Bool)
    (dt : ℚ) (g : GameS) (rng : Rng) (h : g.player.alive = true) :
    Game.update rl il el collide dt g rng =
      (let p1 := Player.update rl il dt g.speed g.player
       let cam := p1.world_x - WIDTH * (35/100)
       let es1 := g.entities.map (Ent.update el dt)
       let col := collisionGo (collide p1 cam) es1 es1 p1 []
       let cul := cullGo col.1.world_x col.2.1 col.2.1 g.score
       let g1 : GameS := { g with player := col.1, camera_x := cam,
                                  entities := cul.1, score := cul.2 }
       ((spawnIfNeeded (speedRamp g1) rng).1, (spawnIfNeeded (speedRamp g1) rng).2,
        col.2.2)) := by
  unfold Game.update
  rw [if_neg (by rw [h]; simp)]

/-- C9: in a fresh session the very first simulation frame already
raises the session speed by one increment while the score is still 0
(for any frame delta up to 2000 ms), because the last recorded
milestone starts at -1 and milestone 0 exceeds it; hence the effective
speed over the rest of the session never drops back to the bare base
speed. -/
theorem c9_first_frame (diff : Difficulty) (rng rng2 rng3 : Rng) (rl il el : ℕ)
    (collide : PlayerS → ℚ → Ent → Bool) (dt : ℚ) (dts : List ℚ)
    (h0 : 0 ≤ dt) (h1 : dt ≤ 2000) :
    (Game.init diff rng).1.last_milestone = -1 ∧
    (Game.init diff rng).1.score = 0 ∧
    (Game.update rl il el collide dt (Game.init diff rng).1 rng2).1.score = 0 ∧
    (Game.update rl il el collide dt (Game.init diff rng).1 rng2).1.speed
      = (Game.init diff rng).1.base_speed + SPEED_INCREASE_STEP ∧
    (Game.init diff rng).1.base_speed
      < (Game.update rl il el collide dt (Game.init diff rng).1 rng2).1.speed ∧
    (Game.init diff rng).1.base_speed + SPEED_INCREASE_STEP
      ≤ (runUpdates rl il el collide dts
          (Game.update rl il el collide dt (Game.init diff rng).1 rng2).1 rng3).1.speed := by
  have halive : (Game.init diff rng).1.player.alive = true := rfl
  have hlast : (Game.init diff rng).1.last_milestone = -1 := rfl
  have hscore0 : (Game.init diff rng).1.score = 0 := rfl
  have hbase5 : (Game.init diff rng).1.base_speed ≤ 5 := by
    show PLAYER_START_SPEED_BASE * DIFFICULTY_MOD diff ≤ 5
    cases diff <;> norm_num [PLAYER_START_SPEED_BASE, DIFFICULTY_MOD]
  have hbase0 : 0 ≤ (Game.init diff rng).1.base_speed := by
    show (0:ℚ) ≤ PLAYER_START_SPEED_BASE * DIFFICULTY_MOD diff
    cases diff <;> norm_num [PLAYER_START_SPEED_BASE, DIFFICULTY_MOD]
  have hspeedeq : (Game.init diff rng).1.speed = (Game.init diff rng).1.base_speed := rfl
  set g0 := (Game.init diff rng).1 with hg0def
  set p1 := Player.update rl il dt g0.speed g0.player with hp1def
  set cam := p1.world_x - WIDTH * (35/100) with hcamdef
  set es1 := g0.entities.map (Ent.update el dt) with hes1def
  set col := collisionGo (collide p1 cam) es1 es1 p1 [] with hcoldef
  set cul := cullGo col.1.world_x col.2.1 col.2.1 g0.score with hculdef
  set g1 : GameS := { g0 with player := col.1, camera_x := cam,
                              entities := cul.1, score := cul.2 } with hg1def
  have hupd : Game.update rl il el collide dt g0 rng2 =
      ((spawnIfNeeded (speedRamp g1) rng2).1, (spawnIfNeeded (speedRamp g1) rng2).2,
       col.2.2) := by
    rw [game_update_alive rl il el collide dt g0 rng2 halive]
  have hpx : col.1.world_x = 100 + g0.speed * (dt / frameRef) := by
    rw [hcoldef, collisionGo_world_x, hp1def, player_update_world_x,
      show g0.player.world_x = (100:ℚ) from rfl]
  have hfr : (0:ℚ) < frameRef := by norm_num [frameRef]
  have hk0 : 0 ≤ dt / frameRef := div_nonneg h0 (le_of_lt hfr)
  have hkB : dt / frameRef ≤ 200000/1667 := by
    calc dt / frameRef ≤ 2000 / frameRef := (div_le_div_iff_of_pos_right hfr).mpr h1
      _ = 200000/1667 := by norm_num [frameRef]
  have hspeed5 : g0.speed ≤ 5 := hspeedeq ▸ hbase5
  have hspeed0 : 0 ≤ g0.speed := hspeedeq ▸ hbase0
  have hpx700 : col.1.world_x < 700 := by
    rw [hpx]
    have hmul : g0.speed * (dt / frameRef) ≤ 5 * (200000/1667) :=
      mul_le_mul hspeed5 hkB hk0 (by norm_num)
    have hnum : (5:ℚ) * (200000/1667) < 600 := by norm_num
    linarith
  have hents480 : ∀ e ∈ col.2.1, (480:ℚ) ≤ e.world_x := by
    intro e he
    rw [hcoldef] at he
    have hmem : e ∈ es1 := collisionGo_subset (collide p1 cam) es1 es1 p1 [] e he
    rw [hes1def] at hmem
    obtain ⟨e0, he0, rfl⟩ := List.mem_map.mp hmem
    apply entLB_update_world_x
    exact seedLoop_entLB 480 5 600 [] rng (by intro e1 he1; simp at he1)
      (by norm_num) e0 he0
  have hcul : cul = (col.2.1, g0.score) := by
    rw [hculdef]
    apply cullGo_none
    intro e he hc
    have h480 := hents480 e he
    linarith
  have hg1score : g1.score = 0 := by
    rw [hg1def]
    show cul.2 = 0
    rw [hcul]
    exact hscore0
  have hg1speed : g1.speed = g0.speed := by rw [hg1def]
  have hg1last : g1.last_milestone = -1 := by
    rw [hg1def]
    exact hlast
  have hml : g1.last_milestone < (g1.score : ℤ) / (SCORE_STEP : ℤ) := by
    rw [hg1last, hg1score]
    norm_num [SCORE_STEP]
  have hcap : ¬ (18:ℚ) < g1.speed + SPEED_INCREASE_STEP := by
    intro hc
    rw [hg1speed, hspeedeq, show SPEED_INCREASE_STEP = (1:ℚ)/2 from rfl] at hc
    linarith
  have hrampspeed : (speedRamp g1).speed = g1.speed + SPEED_INCREASE_STEP := by
    unfold speedRamp
    rw [if_pos hml]
    show (if 18 < g1.speed + SPEED_INCREASE_STEP then (18:ℚ)
          else g1.speed + SPEED_INCREASE_STEP) = g1.speed + SPEED_INCREASE_STEP
    rw [if_neg hcap]
  have hsp : (spawnIfNeeded (speedRamp g1) rng2).1.speed
      = g0.base_speed + SPEED_INCREASE_STEP := by
    rw [(spawnIfNeeded_fields _ _).2.1, hrampspeed, hg1speed, hspeedeq]
  refine ⟨hlast, hscore0, ?_, ?_, ?_, ?_⟩
  · rw [hupd]
    show (spawnIfNeeded (speedRamp g1) rng2).1.score = 0
    rw [(spawnIfNeeded_fields _ _).2.2.1, (speedRamp_fields _).2.2.1, hg1score]
  · rw [hupd]
    exact hsp
  · rw [hupd]
    show g0.base_speed < (spawnIfNeeded (speedRamp g1) rng2).1.speed
    rw [hsp, show SPEED_INCREASE_STEP = (1:ℚ)/2 from rfl]
    linarith
  · rw [hupd]
    show g0.base_speed + SPEED_INCREASE_STEP ≤
      (runUpdates rl il el collide dts (spawnIfNeeded (speedRamp g1) rng2).1 rng3).1.speed
    have h18 : (spawnIfNeeded (speedRamp g1) rng2).1.speed ≤ 18 := by
      rw [hsp, show SPEED_INCREASE_STEP = (1:ℚ)/2 from rfl]
      linarith
    have hrun := runUpdates_speed rl il el collide dts _ rng3 h18
    rw [hsp] at hrun
    exact hrun.1

/-- C9 witness: the first-frame speed bump at a concrete difficulty,
random stream and 16 ms frame. -/
theorem c9_first_frame_witness :
    (Game.init .Normal rngZero).1.last_milestone = -1 ∧
    (Game.init .Normal rngZero).1.score = 0 ∧
    (Game.update 6 4 4 (fun _ _ _ => false) 16 (Game.init .Normal rngZero).1 rngZero).1.score = 0 ∧
    (Game.update 6 4 4 (fun _ _ _ => false) 16 (Game.init .Normal rngZero).1 rngZero).1.speed
      = (Game.init .Normal rngZero).1.base_speed + SPEED_INCREASE_STEP ∧
    (Game.init .Normal rngZero).1.base_speed
      < (Game.update 6 4 4 (fun _ _ _ => false) 16 (Game.init .Normal rngZero).1 rngZero).1.speed ∧
    (Game.init .Normal rngZero).1.base_speed + SPEED_INCREASE_STEP
      ≤ (runUpdates 6 4 4 (fun _ _ _ => false) []
          (Game.update 6 4 4 (fun _ _ _ => false) 16 (Game.init .Normal rngZero).1 rngZero).1
          rngZero).1.speed :=
  c9_first_frame .Normal rngZero rngZero rngZero 6 4 4 (fun _ _ _ => false) 16 []
    (by norm_num) (by norm_num)

end Runner
